import Mathlib

/-!
Verification development for the CascLib storage-open pipeline
(src/src/CascOpenStorage.cpp).

The definitions below are a shallow embedding of that translation unit.
Byte buffers are lists of naturals (each element one byte), machine
integers are naturals reduced modulo 2 ^ 32 or 2 ^ 64 where the C code
performs wrapping arithmetic, and functions of the repository whose
bodies live outside the provided sources (endianness converters, the
central-table maps, the root handlers) are modelled from the
specification, as flagged in their doc comments.
-/

/-! ## Error codes

Numeric values of the Win32 error codes used by CascOpenStorage.cpp.
The numbering comes from the platform headers pulled in through
CascPort.h (not part of src/); only the identity and distinctness of
the codes matters to the control flow modelled here. -/

def casc_ERROR_SUCCESS : Nat := 0

def casc_ERROR_FILE_NOT_FOUND : Nat := 2

def casc_ERROR_NOT_ENOUGH_MEMORY : Nat := 8

def casc_ERROR_BAD_FORMAT : Nat := 11

def casc_ERROR_INVALID_PARAMETER : Nat := 87

def casc_ERROR_INSUFFICIENT_BUFFER : Nat := 122

def casc_ERROR_CANCELLED : Nat := 1223

def casc_ERROR_FILE_CORRUPT : Nat := 1392

/-- Modelled from the spec: ERROR_REPARSE_ROOT is a CascLib-private code
(its numeric value is defined in a header missing from src/); the spec
lists it as an internal, never surfaced error.  Only its distinctness
from the Win32 codes above is used. -/
def casc_ERROR_REPARSE_ROOT : Nat := 0x20000000

/-! ## Sentinels and sizes from the source -/

/-- CASC_INVALID_SIZE: the DWORD sentinel (all bits set). -/
def CASC_INVALID_SIZE : Nat := 0xFFFFFFFF

/-- CASC_INVALID_OFFS64: the 64-bit offset sentinel (all bits set). -/
def CASC_INVALID_OFFS64 : Nat := 0xFFFFFFFFFFFFFFFF

/-- CASC_MAX_EXTRA_ITEMS, defined as 0x40 in CascOpenStorage.cpp. -/
def CASC_MAX_EXTRA_ITEMS : Nat := 0x40

/-- Modelled from the spec: sizeof(FILE_DOWNLOAD_ENTRY).  The struct
lives in CascStructs.h which is not in src/; the per-entry layout in
the spec (ekey 16 bytes, encoded size 5, priority 1) and the source
comment in GetEstimatedNumberOfFiles (at least 22 bytes) give 22. -/
def sizeof_FILE_DOWNLOAD_ENTRY : Nat := 22

/-- Modelled from the spec: sizeof(FILE_CKEY_ENTRY).  The struct lives
in CascStructs.h which is not in src/; the record layout in the spec
(ekey count 2 bytes, content size 4, ckey 16, one ekey 16) and the
source comment in GetEstimatedNumberOfFiles (at least 38 bytes) give
38. -/
def sizeof_FILE_CKEY_ENTRY : Nat := 38

/-! ## Byte codec

Modelled from the spec: the ConvertBytesToInteger family lives in
common/Common.cpp which is not in src/; the spec states the fields
decoded with it (content sizes, encoded sizes, tag values, flags) are
big-endian. -/

/-- Big-endian decoding of a byte list (ConvertBytesToInteger_X with
the bytes already sliced out; an empty slice decodes to 0). -/
def beBytes (l : List Nat) : Nat :=
  l.foldl (fun a b => a * 256 + b) 0

/-- Read n bytes of a buffer starting at off; reads past the end of
the buffer yield a shorter slice. -/
def readBytes (data : List Nat) (off n : Nat) : List Nat :=
  (data.drop off).take n

/-! ## GetEstimatedNumberOfFiles (CascOpenStorage.cpp lines 328-353)

The two content sizes are the ContentSize fields of DownloadCKey and
EncodingCKey; CASC_INVALID_SIZE means unknown. -/

/-- GetEstimatedNumberOfFiles, translated from the source: each known
manifest size yields size / entrysize + CASC_MAX_EXTRA_ITEMS; if either
estimate is non-zero the larger one is returned, otherwise 1000000. -/
def getEstimatedNumberOfFiles (downloadContentSize encodingContentSize : Nat) : Nat :=
  let nNumberOfFiles1 :=
    if downloadContentSize ≠ CASC_INVALID_SIZE then
      downloadContentSize / sizeof_FILE_DOWNLOAD_ENTRY + CASC_MAX_EXTRA_ITEMS
    else 0
  let nNumberOfFiles2 :=
    if encodingContentSize ≠ CASC_INVALID_SIZE then
      encodingContentSize / sizeof_FILE_CKEY_ENTRY + CASC_MAX_EXTRA_ITEMS
    else 0
  if nNumberOfFiles1 ≠ 0 ∨ nNumberOfFiles2 ≠ 0 then
    max nNumberOfFiles1 nNumberOfFiles2
  else
    1000000

/-- The estimate as claim C8 words it: the DOWNLOAD size divided by the
download-entry size when known, otherwise the ENCODING size divided by
the encoding-entry size when known, otherwise 1000000.  Stated for
comparison against getEstimatedNumberOfFiles. -/
def estimatedNumberOfFilesClaim (downloadContentSize encodingContentSize : Nat) : Nat :=
  if downloadContentSize ≠ CASC_INVALID_SIZE then
    downloadContentSize / sizeof_FILE_DOWNLOAD_ENTRY
  else if encodingContentSize ≠ CASC_INVALID_SIZE then
    encodingContentSize / sizeof_FILE_CKEY_ENTRY
  else
    1000000

/-! ## Central CKey table (TCascStorage CKeyArray / CKeyMap / EKeyMap)

A central entry mirrors CASC_CKEY_ENTRY.  The numeric values of the
CASC_CE_* flag bits are declared in CascLib.h (not in src/); modelled
from the spec, which only requires them to be distinct single bits. -/

def CASC_CE_HAS_CKEY : Nat := 1

def CASC_CE_HAS_EKEY : Nat := 2

def CASC_CE_HAS_EKEY_PARTIAL : Nat := 4

def CASC_CE_IN_ENCODING : Nat := 8

def CASC_CE_IN_DOWNLOAD : Nat := 16

def CASC_CE_IN_BUILD : Nat := 32

def CASC_CE_FILE_PATCH : Nat := 64

/-- One entry of the central CKey table (CASC_CKEY_ENTRY).  The two
Bool fields record whether the entry was inserted into CKeyMap resp.
EKeyMap, so that the maps can be modelled as searches over the list of
entries (first match wins, matching the maps of the source). -/
structure CEntry where
  ckey : List Nat
  ekey : List Nat
  storageOffset : Nat
  tagBitMask : Nat
  contentSize : Nat
  encodedSize : Nat
  flags : Nat
  refCount : Nat
  spanCount : Nat
  priority : Nat
  inCKeyMap : Bool
  inEKeyMap : Bool
deriving Repr, DecidableEq, Inhabited

/-- FindCKeyEntry_CKey: lookup in the CKey map, modelled from the spec
as the first central entry registered in the map whose full CKey
matches. -/
def findCKeyEntry_CKey (tbl : List CEntry) (key : List Nat) : Option Nat :=
  tbl.findIdx? (fun e => e.inCKeyMap && decide (e.ckey = key))

/-- FindCKeyEntry_EKey: lookup in the EKey map.  The EKey map is
created with key length CASC_EKEY_SIZE = 9, so only the first nine
bytes of the EKey participate in the match. -/
def findCKeyEntry_EKey (tbl : List CEntry) (key : List Nat) : Option Nat :=
  tbl.findIdx? (fun e => e.inEKeyMap && decide (e.ekey.take 9 = key.take 9))

/-- InsertCKeyEntry, the overload for entries of the text build file
(CascOpenStorage.cpp lines 172-211): skip entries without any key;
insert a copy when the CKey is not yet in the CKey map, otherwise
upgrade the invalid-size sentinels of the existing entry. -/
def insertCKeyEntryBuild (tbl : List CEntry) (ck : CEntry) : List CEntry :=
  if ck.flags &&& (CASC_CE_HAS_CKEY ||| CASC_CE_HAS_EKEY) ≠ 0 then
    match findCKeyEntry_CKey tbl ck.ckey with
    | none =>
        tbl ++ [{ ck with
                  inCKeyMap := ck.flags &&& CASC_CE_HAS_CKEY ≠ 0,
                  inEKeyMap := ck.flags &&& CASC_CE_HAS_EKEY ≠ 0 }]
    | some i =>
        let e := tbl.getD i default
        let e1 := if e.contentSize = CASC_INVALID_SIZE then
                    { e with contentSize := ck.contentSize } else e
        let e2 := if e1.encodedSize = CASC_INVALID_SIZE then
                    { e1 with encodedSize := ck.encodedSize } else e1
        tbl.set i e2
  else
    tbl

/-- A parsed record of an ENCODING CKey page (FILE_CKEY_ENTRY).
Modelled from the spec: the on-wire layout of FILE_CKEY_ENTRY is in
CascStructs.h, missing from src/; the spec gives
ekey count u16 BE, content size u32 BE, ckey 16 bytes, ekeys 16 bytes
each, and the source only reads the count, the content size, the ckey
and the first ekey. -/
structure FileCKeyRecord where
  ekeyCount : Nat
  contentSize : Nat
  ckey : List Nat
  ekey : List Nat
deriving Repr, DecidableEq

/-- Capture one FILE_CKEY_ENTRY at absolute offset o of the buffer. -/
def captureFileCKeyRecord (data : List Nat) (o : Nat) : FileCKeyRecord :=
  { ekeyCount := beBytes (readBytes data o 2)
    contentSize := beBytes (readBytes data (o + 2) 4)
    ckey := readBytes data (o + 6) 16
    ekey := readBytes data (o + 22) 16 }

/-- InsertCKeyEntry, the overload for ENCODING records
(CascOpenStorage.cpp lines 214-249): the entry is appended to the
central array unconditionally (this overload performs no lookup for an
existing entry) and registered in both maps.  copyEKeyEntry stands for
the external CopyEKeyEntry, which copies storage offset and encoded
size from the index files into the fresh entry. -/
def insertCKeyEntryEncoding (copyEKeyEntry : CEntry → CEntry) (tbl : List CEntry)
    (fe : FileCKeyRecord) : List CEntry :=
  let fresh : CEntry :=
    { ckey := fe.ckey
      ekey := fe.ekey
      storageOffset := CASC_INVALID_OFFS64
      tagBitMask := 0
      contentSize := fe.contentSize
      encodedSize := CASC_INVALID_SIZE
      flags := CASC_CE_HAS_CKEY ||| CASC_CE_HAS_EKEY ||| CASC_CE_IN_ENCODING
      refCount := 0
      spanCount := 1
      priority := 0
      inCKeyMap := true
      inEKeyMap := true }
  tbl ++ [copyEKeyEntry fresh]

/-! ## ENCODING manifest (CascOpenStorage.cpp lines 383-516) -/

/-- The converted ENCODING header (CASC_ENCODING_HEADER). -/
structure CascEncodingHeader where
  version : Nat
  ckeyLength : Nat
  ekeyLength : Nat
  ckeyPageSize : Nat
  ekeyPageSize : Nat
  ckeyPageCount : Nat
  ekeyPageCount : Nat
  especBlockSize : Nat
deriving Repr, DecidableEq

/-- sizeof(FILE_ENCODING_HEADER).  Modelled from the spec: the header
is fixed at 22 bytes (magic 2, version 1, key lengths 1+1, page sizes
in KB 2+2, page counts 4+4, one reserved byte, espec block size 4). -/
def sizeof_FILE_ENCODING_HEADER : Nat := 22

/-- CaptureEncodingHeader (lines 383-405): checks the magic 0x45 0x4E,
version 1 and both key lengths 16, then converts the big-endian
fields; page sizes are stored in KB and multiplied by 1024. -/
def captureEncodingHeader (data : List Nat) : Option CascEncodingHeader :=
  if data.length < sizeof_FILE_ENCODING_HEADER then none
  else if ¬(data.getD 0 0 = 0x45 ∧ data.getD 1 0 = 0x4E) then none
  else if data.getD 2 0 ≠ 1 then none
  else if ¬(data.getD 3 0 = 16 ∧ data.getD 4 0 = 16) then none
  else some
    { version := data.getD 2 0
      ckeyLength := data.getD 3 0
      ekeyLength := data.getD 4 0
      ckeyPageSize := beBytes (readBytes data 5 2) * 1024
      ekeyPageSize := beBytes (readBytes data 7 2) * 1024
      ckeyPageCount := beBytes (readBytes data 9 4)
      ekeyPageCount := beBytes (readBytes data 13 4)
      especBlockSize := beBytes (readBytes data 18 4) }

/-- LoadEncodingCKeyPage (lines 407-436): walk the records of one CKey
page.  o is the absolute offset of the next record, endOff the
absolute offset of the end of the page; the loop guard only checks
that the record starts before the end of the page, and a record with
ekey count 0 terminates the walk.  Each record is inserted into the
central array via the ENCODING overload of InsertCKeyEntry.  Every
step advances the offset by at least 6 bytes, so the while loop of
the source runs at most endOff iterations; fuel is an upper bound on
the iteration count supplied by the caller (endOff + 1 always
suffices). -/
def loadEncodingCKeyPage (copyEKeyEntry : CEntry → CEntry) (ckeyLength ekeyLength : Nat)
    (data : List Nat) (endOff : Nat) : Nat → Nat → List CEntry → List CEntry
  | 0, _, tbl => tbl
  | fuel + 1, o, tbl =>
    if o < endOff then
      let fe := captureFileCKeyRecord data o
      if fe.ekeyCount = 0 then tbl
      else
        loadEncodingCKeyPage copyEKeyEntry ckeyLength ekeyLength data endOff fuel
          (o + (2 + 4 + ckeyLength + fe.ekeyCount * ekeyLength))
          (insertCKeyEntryEncoding copyEKeyEntry tbl fe)
    else tbl

/-- Count of the records the page walk of loadEncodingCKeyPage visits
(same traversal, no insertion). -/
def countPageRecords (ckeyLength ekeyLength : Nat) (data : List Nat) (endOff : Nat) :
    Nat → Nat → Nat
  | 0, _ => 0
  | fuel + 1, o =>
    if o < endOff then
      let fe := captureFileCKeyRecord data o
      if fe.ekeyCount = 0 then 0
      else 1 + countPageRecords ckeyLength ekeyLength data endOff fuel
          (o + (2 + 4 + ckeyLength + fe.ekeyCount * ekeyLength))
    else 0

/-- Absolute offset of the CKey page descriptors: the page header
array starts after the file header and the ESpec block (line 464). -/
def encDescBase (h : CascEncodingHeader) : Nat :=
  sizeof_FILE_ENCODING_HEADER + h.especBlockSize

/-- Absolute offset of the first CKey page: the pages follow the
ckeyPageCount page descriptors of 32 bytes (16-byte first key plus
16-byte page hash) each (line 466). -/
def encPagesBase (h : CascEncodingHeader) : Nat :=
  encDescBase h + 32 * h.ckeyPageCount

/-- The 16-byte first-CKey field of page descriptor i. -/
def encDescFirstKey (data : List Nat) (h : CascEncodingHeader) (i : Nat) : List Nat :=
  readBytes data (encDescBase h + 32 * i) 16

/-- The 16-byte CKey of the first record of page i (the CKey field
starts 6 bytes into FILE_CKEY_ENTRY). -/
def encPageFirstRecordCKey (data : List Nat) (h : CascEncodingHeader) (i : Nat) : List Nat :=
  readBytes data (encPagesBase h + i * h.ckeyPageSize + 6) 16

/-- The loop over the CKey pages (lines 469-501): per page, fail with
FILE_CORRUPT when the page does not fit in the buffer, fail with
FILE_CORRUPT when the first record CKey differs from the descriptor
first key, otherwise load the page (which always succeeds). -/
def encPageLoop (copyEKeyEntry : CEntry → CEntry) (h : CascEncodingHeader)
    (data : List Nat) : Nat → Nat → List CEntry → Nat × List CEntry
  | 0, _, tbl => (casc_ERROR_SUCCESS, tbl)
  | n + 1, i, tbl =>
    let pageOff := encPagesBase h + i * h.ckeyPageSize
    if pageOff + h.ckeyPageSize > data.length then
      (casc_ERROR_FILE_CORRUPT, tbl)
    else if encPageFirstRecordCKey data h i ≠ encDescFirstKey data h i then
      (casc_ERROR_FILE_CORRUPT, tbl)
    else
      encPageLoop copyEKeyEntry h data n (i + 1)
        (loadEncodingCKeyPage copyEKeyEntry h.ckeyLength h.ekeyLength data
          (pageOff + h.ckeyPageSize) (pageOff + h.ckeyPageSize + 1) pageOff tbl)

/-- CopyBuildFileItemsToCKeyArray (lines 304-323): insert the
well-known build-file entries (and the VFS roots) through the
build-file overload of InsertCKeyEntry; always returns success. -/
def copyBuildFileItemsToCKeyArray (tbl : List CEntry) (buildEntries : List CEntry) :
    List CEntry :=
  buildEntries.foldl insertCKeyEntryBuild tbl

/-- The parsing part of LoadEncodingManifest (lines 455-515), starting
from the ENCODING blob already loaded into memory (the preceding
progress callback, index copy and file load are external to this
buffer-level model).  A bad header is BAD_FORMAT; otherwise the page
loop runs and, on success, the build-file items are copied in. -/
def loadEncodingManifestBody (copyEKeyEntry : CEntry → CEntry)
    (buildEntries : List CEntry) (data : List Nat) (tbl : List CEntry) :
    Nat × List CEntry :=
  match captureEncodingHeader data with
  | none => (casc_ERROR_BAD_FORMAT, tbl)
  | some h =>
    let r := encPageLoop copyEKeyEntry h data h.ckeyPageCount 0 tbl
    if r.1 = casc_ERROR_SUCCESS then
      (casc_ERROR_SUCCESS, copyBuildFileItemsToCKeyArray r.2 buildEntries)
    else r

/-! ## DOWNLOAD manifest (CascOpenStorage.cpp lines 518-776) -/

/-- GetTagBitmapLength (lines 518-527): the declared bitmap length is
entryCount / 8 plus one byte when entryCount is not a multiple of 8;
when that many bytes do not remain before the end of the buffer, the
length is shortened to the remaining byte count.  remaining is the
number of bytes from the bitmap position to the end of the buffer. -/
def getTagBitmapLength (remaining entryCount : Nat) : Nat :=
  let nBitmapLength := entryCount / 8 + (if entryCount % 8 ≠ 0 then 1 else 0)
  if nBitmapLength > remaining then remaining else nBitmapLength

/-- A captured DOWNLOAD tag (CASC_TAG_ENTRY1); the bitmap is stored as
the byte slice of its effective (possibly shortened) length. -/
structure CascTagEntry1 where
  nameLength : Nat
  tagValue : Nat
  bitmap : List Nat
  tagLength : Nat
deriving Repr, DecidableEq, Inhabited

/-- CaptureDownloadTag (lines 601-635) on the remaining buffer r: scan
the NUL-terminated tag name (fail when no NUL remains), require four
bytes after the NUL (the source checks sizeof(DWORD) although it reads
a 2-byte value), decode the big-endian tag value, and take the bitmap
of effective length getTagBitmapLength; a shortened bitmap is not a
failure. -/
def captureDownloadTag (entryCount : Nat) (r : List Nat) : Option CascTagEntry1 :=
  match r.findIdx? (fun b => b == 0) with
  | none => none
  | some k =>
    if k + 1 + 4 > r.length then none
    else
      let bitmapLen := getTagBitmapLength (r.length - (k + 3)) entryCount
      some { nameLength := k
             tagValue := beBytes (readBytes r (k + 1) 2)
             bitmap := readBytes r (k + 3) bitmapLen
             tagLength := (k + 3) + bitmapLen }

/-- The per-tag test of the entry loop (line 728): entry index i
belongs to the tag when byte i / 8 lies inside the effective bitmap
and has bit 0x80 >> (i % 8) set. -/
def tagMatchesEntry (t : CascTagEntry1) (i : Nat) : Bool :=
  decide (i / 8 < t.bitmap.length) && decide (t.bitmap.getD (i / 8) 0 &&& (0x80 >>> (i % 8)) ≠ 0)

/-- The inner tag loop of LoadDownloadManifest (lines 725-733): TagBit
starts at 1 and is shifted left once per tag in 64-bit arithmetic
(shifting wraps to 0 after bit 63, discarding tags beyond 64); the bit
is ORed into the accumulated mask when the tag covers entry i. -/
def tagBitsAux : List CascTagEntry1 → Nat → Nat → Nat → Nat
  | [], _, _, acc => acc
  | t :: ts, i, tagBit, acc =>
      tagBitsAux ts i (tagBit * 2 % 2 ^ 64)
        (if tagMatchesEntry t i then acc ||| tagBit else acc)

/-- Closed form of the mask contributed by the tags from position k
onward (used to reason about tagBitsAux). -/
def tagOrMask : List CascTagEntry1 → Nat → Nat → Nat
  | [], _, _ => 0
  | t :: ts, i, k =>
      (if tagMatchesEntry t i then 2 ^ k % 2 ^ 64 else 0) ||| tagOrMask ts i (k + 1)

/-- The converted DOWNLOAD header (CASC_DOWNLOAD_HEADER), as produced
by CaptureDownloadHeader (lines 529-568): entryLength is
ekeyLength + 5 + 1, plus 4 with a checksum, plus flagByteSize from
version 2 on; headerLength depends on the version. -/
structure CascDownloadHeader where
  version : Nat
  ekeyLength : Nat
  entryHasChecksum : Nat
  entryCount : Nat
  tagCount : Nat
  flagByteSize : Nat
  basePriority : Nat
  headerLength : Nat
  entryLength : Nat
deriving Repr, DecidableEq

/-- A captured DOWNLOAD entry (CASC_DOWNLOAD_ENTRY). -/
structure CascDownloadEntry where
  ekey : List Nat
  encodedSize : Nat
  priority : Nat
  checksum : Nat
  flags : Nat
deriving Repr, DecidableEq

/-- CaptureDownloadEntry (lines 570-599) on the remaining buffer r:
the range check rejects the entry when the record of entryLength bytes
ends at or beyond the end of the buffer (the source compares with >=,
so a record flush with the buffer end is rejected too); otherwise the
fields are decoded: EKey of ekeyLength bytes zero-padded to 16, 5-byte
big-endian encoded size, priority byte, optional 4-byte checksum and
flagByteSize bytes of big-endian flags. -/
def captureDownloadEntry (hdr : CascDownloadHeader) (r : List Nat) : Option CascDownloadEntry :=
  if r.length ≤ hdr.entryLength then none
  else some
    { ekey := readBytes r 0 hdr.ekeyLength ++ List.replicate (16 - hdr.ekeyLength) 0
      encodedSize := beBytes (readBytes r hdr.ekeyLength 5)
      priority := r.getD (hdr.ekeyLength + 5) 0
      checksum := if hdr.entryHasChecksum ≠ 0 then
          beBytes (readBytes r (hdr.ekeyLength + 6) 4) else 0
      flags := beBytes (readBytes r
          (hdr.ekeyLength + 6 + (if hdr.entryHasChecksum ≠ 0 then 4 else 0))
          hdr.flagByteSize) }

/-- InsertCKeyEntry, the overload for DOWNLOAD entries (lines 252-302):
look the EKey up in the EKey map; when absent, append a CKey-less
entry (zero CKey, encoded size from the entry truncated to DWORD, flag
HAS_EKEY | IN_DOWNLOAD) registered only in the EKey map; when present,
complete a partial EKey, supply a missing encoded size, clear the
partial flag and set IN_DOWNLOAD.  Both paths finally store the
priority.  Returns the table and the index of the affected entry. -/
def insertCKeyEntryDownload (copyEKeyEntry : CEntry → CEntry) (tbl : List CEntry)
    (dl : CascDownloadEntry) : List CEntry × Nat :=
  match findCKeyEntry_EKey tbl dl.ekey with
  | none =>
    let fresh : CEntry :=
      { ckey := List.replicate 16 0
        ekey := dl.ekey
        storageOffset := CASC_INVALID_OFFS64
        tagBitMask := 0
        contentSize := CASC_INVALID_SIZE
        encodedSize := dl.encodedSize % 2 ^ 32
        flags := CASC_CE_HAS_EKEY ||| CASC_CE_IN_DOWNLOAD
        refCount := 0
        spanCount := 1
        priority := dl.priority
        inCKeyMap := false
        inEKeyMap := true }
    (tbl ++ [copyEKeyEntry fresh], tbl.length)
  | some i =>
    let e := tbl.getD i default
    let e1 := if e.flags &&& CASC_CE_HAS_EKEY_PARTIAL ≠ 0 then { e with ekey := dl.ekey } else e
    let e2 := if e1.encodedSize = CASC_INVALID_SIZE then
        { e1 with encodedSize := dl.encodedSize % 2 ^ 32 } else e1
    let e3 := { e2 with
        flags := ((e2.flags ||| CASC_CE_HAS_EKEY_PARTIAL) - CASC_CE_HAS_EKEY_PARTIAL)
          ||| CASC_CE_IN_DOWNLOAD
        priority := dl.priority }
    (tbl.set i e3, i)

/-- The tag capture loop of LoadDownloadManifest (lines 659-664): one
CaptureDownloadTag per declared tag, each advancing by the captured
tag length; a failed capture leaves a zeroed tag whose length 0 does
not advance the position (as the memset tag of the source). -/
def dlTagWalk (entryCount : Nat) (data : List Nat) :
    Nat → Nat → List CascTagEntry1 → List CascTagEntry1
  | 0, _, acc => acc
  | n + 1, pos, acc =>
    match captureDownloadTag entryCount (data.drop pos) with
    | some t => dlTagWalk entryCount data n (pos + t.tagLength) (acc ++ [t])
    | none => dlTagWalk entryCount data n pos (acc ++ [default])

/-- The entry loop of LoadDownloadManifest (lines 703-739): per index
i, capture the entry at headerLength + i * entryLength; a failed
capture breaks out of the loop without touching the error code;
otherwise the entry is upserted into the central table and, when a tag
array exists, the tag bits for index i are ORed into the tag bit mask
of the affected entry.  Returns the table and the number of entries
processed. -/
def dlEntryLoop (copyEKeyEntry : CEntry → CEntry) (hdr : CascDownloadHeader)
    (tagsOpt : Option (List CascTagEntry1)) (data : List Nat) :
    Nat → Nat → List CEntry → List CEntry × Nat
  | 0, i, tbl => (tbl, i)
  | n + 1, i, tbl =>
    match captureDownloadEntry hdr (data.drop (hdr.headerLength + i * hdr.entryLength)) with
    | none => (tbl, i)
    | some dl =>
      let r := insertCKeyEntryDownload copyEKeyEntry tbl dl
      let tbl2 :=
        match tagsOpt with
        | some tags =>
            let e := r.1.getD r.2 default
            r.1.set r.2 { e with tagBitMask := tagBitsAux tags i 1 e.tagBitMask }
        | none => r.1
      dlEntryLoop copyEKeyEntry hdr tagsOpt data n (i + 1) tbl2

/-- Result of the inner LoadDownloadManifest. -/
structure DlResult where
  err : Nat
  processed : Nat
  table : List CEntry
  totalFiles : Nat
deriving Repr, DecidableEq

/-- The inner LoadDownloadManifest (lines 637-747): when tags are
declared, capture them starting behind the entry block (a failed tag
array allocation, abstracted by tagAllocOk, records NOT_ENOUGH_MEMORY
and leaves no tag array); the entry loop then runs regardless and its
break does not record any error; the total file count is set to the
final item count of the central array and the error code of the tag
phase is returned. -/
def loadDownloadManifestInner (copyEKeyEntry : CEntry → CEntry)
    (hdr : CascDownloadHeader) (data : List Nat) (tbl : List CEntry)
    (tagAllocOk : Bool) : DlResult :=
  let tagPhase : Nat × Option (List CascTagEntry1) :=
    if hdr.tagCount ≠ 0 then
      if tagAllocOk then
        (casc_ERROR_SUCCESS,
         some (dlTagWalk hdr.entryCount data hdr.tagCount
           (hdr.headerLength + hdr.entryLength * hdr.entryCount) []))
      else (casc_ERROR_NOT_ENOUGH_MEMORY, none)
    else (casc_ERROR_SUCCESS, none)
  let r := dlEntryLoop copyEKeyEntry hdr tagPhase.2 data hdr.entryCount 0 tbl
  { err := tagPhase.1
    processed := r.2
    table := r.1
    totalFiles := r.1.length }

/-! ## ROOT dispatcher (LoadBuildManifest, CascOpenStorage.cpp lines 844-944) -/

/-- Modelled from the spec: a root handler carries a name-to-CKey map
(the handler internals are external subsystems; only insert and copy
are relevant here).  CKeys are abstracted to naturals in this map. -/
structure RootHandler where
  entries : List (String × Nat)
deriving Repr, DecidableEq

/-- Modelled from the spec: TRootHandler Copy copies the name-to-CKey
map of the old handler into the new handler (line 940). -/
def rootHandlerCopy (hNew hOld : RootHandler) : RootHandler :=
  { entries := hNew.entries ++ hOld.entries }

/-- Line 870 reassigns pCKeyEntry to the result of FindCKeyEntry_CKey
before every load.  That result is a pointer into the central array
(or NULL), never the address of the hs RootFile member, so the
comparison pCKeyEntry != &hs->RootFile of line 923 is true on every
iteration.  This definition records that fact of the embedding. -/
def findResultIsRootFileField : Bool := false

/-- Result of LoadBuildManifest: error code, root handler left in the
storage, progress-callback messages issued, and number of ROOT-blob
load attempts performed. -/
structure LBMResult where
  err : Nat
  handler : Option RootHandler
  callbacks : List String
  attempts : Nat
deriving Repr, DecidableEq

/-- The goto loop of LoadBuildManifest (lines 867-935).  attempt
abstracts one pass of load-and-dispatch: given whether the VFS-root
CKey (true) or the build ROOT CKey (false) is loaded, it returns the
error code of the dispatch and the handler the chosen creator left in
the storage.  old is the saved pOldRootHandler.  On REPARSE_ROOT the
reparse guard compares the reassigned pCKeyEntry with the RootFile
member (always unequal, see findResultIsRootFileField), issues the
reparse progress callback (cancelling on a truthy return), saves the
current handler as the old one and loops with the ROOT CKey.  On exit,
when both the current and the saved handler exist, the old map is
copied into the new handler before the old one is destroyed.  The
fuel bounds the otherwise unbounded goto loop; exhaustion reports the
still-pending reparse code. -/
def lbmGo (attempt : Bool → Nat × Option RootHandler) (cb : String → Bool) :
    Nat → Bool → Option RootHandler → List String → Nat → LBMResult
  | 0, _, _, cbs, atts => ⟨casc_ERROR_REPARSE_ROOT, none, cbs, atts⟩
  | fuel + 1, useVfs, old, cbs, atts =>
    let r := attempt useVfs
    if r.1 = casc_ERROR_REPARSE_ROOT ∧ findResultIsRootFileField = false then
      if cb "Loading ROOT manifest (reparsed)" then
        ⟨casc_ERROR_CANCELLED, r.2, cbs ++ ["Loading ROOT manifest (reparsed)"], atts + 1⟩
      else
        lbmGo attempt cb fuel false r.2 (cbs ++ ["Loading ROOT manifest (reparsed)"]) (atts + 1)
    else
      match r.2, old with
      | some hNew, some hOld => ⟨r.1, some (rootHandlerCopy hNew hOld), cbs, atts + 1⟩
      | _, _ => ⟨r.1, r.2, cbs, atts + 1⟩

/-- LoadBuildManifest (lines 844-944): the initial progress callback
"Loading ROOT manifest" cancels the load on a truthy return; otherwise
the VFS-root CKey is preferred over the build ROOT CKey when the
VfsRoot content size is known (hasVfsRoot), and the load loop runs. -/
def loadBuildManifestModel (attempt : Bool → Nat × Option RootHandler)
    (cb : String → Bool) (hasVfsRoot : Bool) (fuel : Nat) : LBMResult :=
  if cb "Loading ROOT manifest" then
    ⟨casc_ERROR_CANCELLED, none, ["Loading ROOT manifest"], 0⟩
  else
    lbmGo attempt cb fuel hasVfsRoot none ["Loading ROOT manifest"] 0

/-! ## Total file count (lines 946-969 and 1502-1505) -/

/-- GetStorageTotalFileCount: sum, over the central entries that are
files, of the reference count (counted as 1 when zero), in wrapping
DWORD arithmetic.  IsFile is declared in CascLib.h (not in src/) and
is kept abstract. -/
def getStorageTotalFileCount (isFile : CEntry → Bool) (tbl : List CEntry) : Nat :=
  tbl.foldl
    (fun acc e =>
      if isFile e then (acc + (if e.refCount ≠ 0 then e.refCount else 1)) % 2 ^ 32
      else acc) 0

/-- The storage state consulted by the total-file-count info query:
the cached TotalFiles counter and the central array. -/
structure StorageCountState where
  totalFiles : Nat
  table : List CEntry
deriving Repr, DecidableEq

/-- The CascStorageTotalFileCount branch of CascGetStorageInfo (lines
1502-1505): when the cached count is zero it is recomputed by
GetStorageTotalFileCount and stored; the returned info value is the
cached count truncated to DWORD. -/
def cascGetStorageInfoTotalFileCount (isFile : CEntry → Bool)
    (s : StorageCountState) : Nat × StorageCountState :=
  if s.totalFiles = 0 then
    let v := getStorageTotalFileCount isFile s.table
    (v % 2 ^ 32, { s with totalFiles := v })
  else
    (s.totalFiles % 2 ^ 32, s)

/-! ## The open pipeline (LoadCascStorage, lines 1088-1260)

Each phase that the pipeline calls out to is abstracted by the error
code it returns; the guard if(dwErrCode == ERROR_SUCCESS) before every
phase is the combinator stepE. -/

/-- The pipeline phases guarded by if(dwErrCode == ERROR_SUCCESS). -/
inductive OpenPhase where
  | mainFile
  | cdnConfig
  | cdnBuild
  | initCKey
  | indexFiles
  | encoding
  | download
  | root
  | install
  | wellKnown
  | encKeys
deriving Repr, DecidableEq

/-- The if(dwErrCode == ERROR_SUCCESS) dwErrCode = next; pattern: a
phase runs only while no error is pending. -/
def stepE (cur next : Nat) : Nat :=
  if cur = casc_ERROR_SUCCESS then next else cur

/-- The outcome of every external phase of LoadCascStorage, plus the
two storage facts the pipeline branches on. -/
structure OpenOracle where
  allocOk : Bool
  online : Bool
  mainFile : Nat
  cdnConfig : Nat
  cdnBuild : Nat
  initCKey : Nat
  indexFiles : Nat
  encoding : Nat
  download : Nat
  root : Nat
  install : Nat
  encKeys : Nat
deriving Repr, DecidableEq

/-- LoadCascStorage (lines 1088-1260): the sequential phase chain.
allocOk covers the root-path and main-file allocations of lines
1126-1136; the CDN-config error is forgiven on a non-online storage
(lines 1165-1170); a ROOT failure other than NOT_ENOUGH_MEMORY is
replaced by the INSTALL result (lines 1225-1232); the well-known-file
insertion (lines 1237-1248) produces no error.  The second component
lists the phases actually entered. -/
def loadCascStorage (o : OpenOracle) : Nat × List OpenPhase :=
  let e0 := if o.allocOk then casc_ERROR_SUCCESS else casc_ERROR_NOT_ENOUGH_MEMORY
  let e1 := stepE e0 o.mainFile
  let e2 := stepE e1 (if o.cdnConfig ≠ casc_ERROR_SUCCESS ∧ o.online = false
                      then casc_ERROR_SUCCESS else o.cdnConfig)
  let e3 := stepE e2 o.cdnBuild
  let e4 := stepE e3 o.initCKey
  let e5 := stepE e4 o.indexFiles
  let e6 := stepE e5 o.encoding
  let e7 := stepE e6 o.download
  let e8 := stepE e7 (if o.root ≠ casc_ERROR_SUCCESS ∧ o.root ≠ casc_ERROR_NOT_ENOUGH_MEMORY
                      then o.install else o.root)
  let e9 := stepE e8 o.encKeys
  (e9,
   (if e0 = casc_ERROR_SUCCESS then [OpenPhase.mainFile] else []) ++
   (if e1 = casc_ERROR_SUCCESS then [OpenPhase.cdnConfig] else []) ++
   (if e2 = casc_ERROR_SUCCESS then [OpenPhase.cdnBuild] else []) ++
   (if e3 = casc_ERROR_SUCCESS then [OpenPhase.initCKey] else []) ++
   (if e4 = casc_ERROR_SUCCESS then [OpenPhase.indexFiles] else []) ++
   (if e5 = casc_ERROR_SUCCESS then [OpenPhase.encoding] else []) ++
   (if e6 = casc_ERROR_SUCCESS then [OpenPhase.download] else []) ++
   (if e7 = casc_ERROR_SUCCESS then [OpenPhase.root] else []) ++
   (if e7 = casc_ERROR_SUCCESS ∧ o.root ≠ casc_ERROR_SUCCESS ∧
        o.root ≠ casc_ERROR_NOT_ENOUGH_MEMORY then [OpenPhase.install] else []) ++
   (if e8 = casc_ERROR_SUCCESS then [OpenPhase.wellKnown, OpenPhase.encKeys] else []))

/-- First non-success code of a list of effective phase results. -/
def firstError : List Nat → Nat
  | [] => casc_ERROR_SUCCESS
  | e :: rest => if e = casc_ERROR_SUCCESS then firstError rest else e

/-- The open pipeline as the spec describes it: every phase error
propagates upward and fails the open, except that a CDN-config failure
on a non-online storage is converted to success and a ROOT failure
other than out-of-memory is replaced by the INSTALL result. -/
def openPipelineSpec (o : OpenOracle) : Nat :=
  firstError
    [if o.allocOk then casc_ERROR_SUCCESS else casc_ERROR_NOT_ENOUGH_MEMORY,
     o.mainFile,
     if o.cdnConfig ≠ casc_ERROR_SUCCESS ∧ o.online = false
       then casc_ERROR_SUCCESS else o.cdnConfig,
     o.cdnBuild,
     o.initCKey,
     o.indexFiles,
     o.encoding,
     o.download,
     if o.root ≠ casc_ERROR_SUCCESS ∧ o.root ≠ casc_ERROR_NOT_ENOUGH_MEMORY
       then o.install else o.root,
     o.encKeys]

/-- CascOpenStorageEx after LoadCascStorage (lines 1424-1434): on any
error the storage is released and the handle output is null; the
call returns whether the error code is SUCCESS. -/
def openStorageExResult (r : Nat × List OpenPhase) : Bool × Option Unit :=
  (r.1 = casc_ERROR_SUCCESS, if r.1 = casc_ERROR_SUCCESS then some () else none)

/-! ## Phase-boundary progress callbacks

The phase loaders each invoke InvokeProgressCallback before doing any
work and return ERROR_CANCELLED on a truthy result (lines 445-446,
756-757, 789-790, 857-858, 925-926). -/

/-- LoadEncodingManifest seen from the pipeline: the callback guard in
front of the remaining work of the phase. -/
def loadEncodingPhase (cb : String → Bool) (rest : Nat) : Nat :=
  if cb "Loading ENCODING manifest" then casc_ERROR_CANCELLED else rest

/-- LoadDownloadManifest seen from the pipeline: the callback guard in
front of the remaining work of the phase. -/
def loadDownloadPhase (cb : String → Bool) (rest : Nat) : Nat :=
  if cb "Loading DOWNLOAD manifest" then casc_ERROR_CANCELLED else rest

/-- LoadInstallManifest seen from the pipeline: the callback guard in
front of the remaining work of the phase. -/
def loadInstallPhase (cb : String → Bool) (rest : Nat) : Nat :=
  if cb "Loading INSTALL manifest" then casc_ERROR_CANCELLED else rest

/-- LoadCascStorage with the callback-bearing phases expanded: the
ENCODING, DOWNLOAD and INSTALL phases run behind their callback
guards and the ROOT phase is the full LoadBuildManifest model. -/
def loadCascStorageWithCallback (o : OpenOracle) (cb : String → Bool)
    (attempt : Bool → Nat × Option RootHandler) (hasVfsRoot : Bool) (fuel : Nat) :
    Nat × List OpenPhase :=
  loadCascStorage
    { o with
      encoding := loadEncodingPhase cb o.encoding
      download := loadDownloadPhase cb o.download
      root := (loadBuildManifestModel attempt cb hasVfsRoot fuel).err
      install := loadInstallPhase cb o.install }

/-- An oracle in which every phase succeeds (a well-formed local
storage). -/
def oracleAllSuccess : OpenOracle :=
  { allocOk := true
    online := false
    mainFile := 0
    cdnConfig := 0
    cdnBuild := 0
    initCKey := 0
    indexFiles := 0
    encoding := 0
    download := 0
    root := 0
    install := 0
    encKeys := 0 }

/-! ## Concrete instances used to evaluate the models -/

/-- A progress callback that never requests cancellation. -/
def cbNever : String → Bool := fun _ => false

/-- A progress callback that is truthy exactly at the ROOT phase
boundary. -/
def cbTruthyAtRoot : String → Bool := fun s => s == "Loading ROOT manifest"

/-- A dispatch oracle in which the VFS root reparses (leaving a
handler with one name) and the build ROOT CKey dispatches
successfully to a handler with one name. -/
def attemptGoodReparse : Bool → Nat × Option RootHandler := fun useVfs =>
  if useVfs then (casc_ERROR_REPARSE_ROOT, some ⟨[("vfs-name", 7)]⟩)
  else (casc_ERROR_SUCCESS, some ⟨[("root-name", 11)]⟩)

/-- A dispatch oracle in which every loaded ROOT blob, the build ROOT
CKey included, makes its handler return REPARSE_ROOT. -/
def attemptAlwaysReparse : Bool → Nat × Option RootHandler := fun _ =>
  (casc_ERROR_REPARSE_ROOT, some ⟨[]⟩)

/-- One ENCODING CKey page image: a single record (ekey count 1,
content size 0x100, CKey sixteen 0xAA bytes, EKey sixteen 0xBB bytes)
followed by a zero ekey count terminating the walk. -/
def encPageDup : List Nat :=
  [0, 1, 0, 0, 1, 0] ++ List.replicate 16 0xAA ++ List.replicate 16 0xBB ++ [0, 0]

/-- An ENCODING file image whose single CKey page starts with CKey
0xCC..CC while page descriptor 0 declares first key 0xAA..AA: header
(page size 1 KB, one CKey page, empty ESpec block), one descriptor,
one 1024-byte page whose first record has the mismatching CKey. -/
def encFileMismatch : List Nat :=
  [0x45, 0x4E, 1, 16, 16, 0, 1, 0, 0, 0, 0, 0, 1, 0, 0, 0, 0, 0, 0, 0, 0, 0] ++
  (List.replicate 16 0xAA ++ List.replicate 16 0) ++
  ([0, 1, 0, 0, 1, 0] ++ List.replicate 16 0xCC ++ List.replicate 16 0xBB ++
   List.replicate 986 0)

/-- The header captured from encFileMismatch. -/
def encHdrMismatch : CascEncodingHeader :=
  { version := 1
    ckeyLength := 16
    ekeyLength := 16
    ckeyPageSize := 1024
    ekeyPageSize := 0
    ckeyPageCount := 1
    ekeyPageCount := 0
    especBlockSize := 0 }

/-- A central entry with a given reference count and file status, used
to evaluate the count query on concrete states. -/
def sampleEntry (r : Nat) (inMap : Bool) : CEntry :=
  { ckey := []
    ekey := []
    storageOffset := 0
    tagBitMask := 0
    contentSize := 0
    encodedSize := 0
    flags := 0
    refCount := r
    spanCount := 0
    priority := 0
    inCKeyMap := false
    inEKeyMap := inMap }

/-! ## Theorems -/

theorem stepE_assoc (a b c : Nat) : stepE (stepE a b) c = stepE a (stepE b c) := by
  by_cases ha : a = 0 <;> by_cases hb : b = 0 <;>
    simp [stepE, casc_ERROR_SUCCESS, ha, hb]

theorem stepE_success (a : Nat) : stepE a casc_ERROR_SUCCESS = a := by
  simp only [stepE, casc_ERROR_SUCCESS]
  split <;> omega

theorem firstError_nil : firstError [] = casc_ERROR_SUCCESS := rfl

theorem firstError_cons (x : Nat) (l : List Nat) :
    firstError (x :: l) = stepE x (firstError l) := rfl

/-- The error code computed by the pipeline coincides with the
first-error-with-the-two-softenings description. -/
theorem loadCascStorage_fst (o : OpenOracle) :
    (loadCascStorage o).1 = openPipelineSpec o := by
  simp only [loadCascStorage, openPipelineSpec, firstError_cons, firstError_nil,
    stepE_success, stepE_assoc]

/-- C6: the open pipeline performs exactly two recoveries — a CDN
config failure is converted to success when the storage is not online,
and a ROOT failure with any code other than NOT_ENOUGH_MEMORY is
replaced by the result of loading the INSTALL manifest — and every
other phase error propagates and fails the open: for every outcome of
the phases, the pipeline result is the first effective phase error
under exactly those two softenings. -/
theorem spec_C6_twoRecoveries (o : OpenOracle) :
    (loadCascStorage o).1 = openPipelineSpec o :=
  loadCascStorage_fst o

/-- C8 counterexample: with a DOWNLOAD content size of 22 bytes and an
ENCODING content size of 3800 bytes the code returns 164 (the larger
of the two padded estimates), not 22 / 22 = 1 as the claim (DOWNLOAD
size divided by entry size whenever the DOWNLOAD size is known) would
require. -/
theorem spec_C8_cex :
    getEstimatedNumberOfFiles 22 3800 = 164 ∧
    estimatedNumberOfFilesClaim 22 3800 = 1 ∧
    getEstimatedNumberOfFiles 22 3800 ≠ estimatedNumberOfFilesClaim 22 3800 := by
  decide

/-- C8 (amended): GetEstimatedNumberOfFiles returns the larger of the
two estimates — content size divided by entry size plus
CASC_MAX_EXTRA_ITEMS, for each manifest whose size is known — and
1000000 only when neither the DOWNLOAD nor the ENCODING size is
known. -/
theorem spec_C8_amended (d e : Nat) :
    (d = CASC_INVALID_SIZE ∧ e = CASC_INVALID_SIZE →
      getEstimatedNumberOfFiles d e = 1000000) ∧
    (d ≠ CASC_INVALID_SIZE ∨ e ≠ CASC_INVALID_SIZE →
      getEstimatedNumberOfFiles d e =
        max (if d ≠ CASC_INVALID_SIZE then
               d / sizeof_FILE_DOWNLOAD_ENTRY + CASC_MAX_EXTRA_ITEMS else 0)
            (if e ≠ CASC_INVALID_SIZE then
               e / sizeof_FILE_CKEY_ENTRY + CASC_MAX_EXTRA_ITEMS else 0)) := by
  constructor
  · rintro ⟨rfl, rfl⟩
    decide
  · intro h
    unfold getEstimatedNumberOfFiles
    rcases h with h | h <;> split_ifs <;> simp_all [CASC_MAX_EXTRA_ITEMS]

/-- C8 witness: the amended statement evaluated at concrete sizes. -/
theorem spec_C8_witness :
    getEstimatedNumberOfFiles 22 3800 =
      max (22 / sizeof_FILE_DOWNLOAD_ENTRY + CASC_MAX_EXTRA_ITEMS)
          (3800 / sizeof_FILE_CKEY_ENTRY + CASC_MAX_EXTRA_ITEMS) ∧
    getEstimatedNumberOfFiles CASC_INVALID_SIZE CASC_INVALID_SIZE = 1000000 := by
  constructor
  · have h := (spec_C8_amended 22 3800).2 (by decide)
    simpa using h
  · exact (spec_C8_amended CASC_INVALID_SIZE CASC_INVALID_SIZE).1 ⟨rfl, rfl⟩

/-- C1 counterexample: with every earlier phase succeeding and the
DOWNLOAD manifest phase failing (BAD_FORMAT), the open does not
succeed — the pipeline result is the DOWNLOAD error, not SUCCESS —
and the ROOT phase is never entered, contradicting the claim that a
DOWNLOAD parse failure is non-fatal and the pipeline continues to the
ROOT phase. -/
theorem spec_C1_cex :
    (loadCascStorage { oracleAllSuccess with download := casc_ERROR_BAD_FORMAT }).1 =
      casc_ERROR_BAD_FORMAT ∧
    (loadCascStorage { oracleAllSuccess with download := casc_ERROR_BAD_FORMAT }).1 ≠
      casc_ERROR_SUCCESS ∧
    OpenPhase.root ∉
      (loadCascStorage { oracleAllSuccess with download := casc_ERROR_BAD_FORMAT }).2 := by
  refine ⟨rfl, by decide, by decide⟩

/-- C1 (amended): a DOWNLOAD manifest failure after a successful
ENCODING phase is fatal — the error propagates unchanged, the ROOT
phase is skipped and the open fails with the DOWNLOAD error code. -/
theorem spec_C1_amended (o : OpenOracle)
    (h0 : o.allocOk = true) (h1 : o.mainFile = casc_ERROR_SUCCESS)
    (h2 : o.cdnConfig = casc_ERROR_SUCCESS ∨ o.online = false)
    (h3 : o.cdnBuild = casc_ERROR_SUCCESS) (h4 : o.initCKey = casc_ERROR_SUCCESS)
    (h5 : o.indexFiles = casc_ERROR_SUCCESS) (h6 : o.encoding = casc_ERROR_SUCCESS)
    (h7 : o.download ≠ casc_ERROR_SUCCESS) :
    (loadCascStorage o).1 = o.download ∧
    OpenPhase.root ∉ (loadCascStorage o).2 := by
  have h2e : (if o.cdnConfig ≠ casc_ERROR_SUCCESS ∧ o.online = false
              then casc_ERROR_SUCCESS else o.cdnConfig) = casc_ERROR_SUCCESS := by
    rcases h2 with h | h
    · simp [h]
    · simp only [h]
      split_ifs with hc <;> simp_all
  have h7e : ¬o.download = 0 := by simpa [casc_ERROR_SUCCESS] using h7
  constructor
  · rw [loadCascStorage_fst]
    simp only [openPipelineSpec, h0, h1, h2e, h3, h4, h5, h6]
    simp [firstError, casc_ERROR_SUCCESS, h7e]
  · simp only [loadCascStorage, h0, h1, h2e, h3, h4, h5, h6]
    simp [stepE, casc_ERROR_SUCCESS, h7e]

/-- C1 witness: the amended statement at a concrete oracle. -/
theorem spec_C1_witness :
    (loadCascStorage { oracleAllSuccess with download := casc_ERROR_FILE_NOT_FOUND }).1 =
      casc_ERROR_FILE_NOT_FOUND ∧
    OpenPhase.root ∉
      (loadCascStorage { oracleAllSuccess with download := casc_ERROR_FILE_NOT_FOUND }).2 :=
  spec_C1_amended { oracleAllSuccess with download := casc_ERROR_FILE_NOT_FOUND }
    rfl rfl (Or.inl rfl) rfl rfl rfl rfl (by decide)

/-- With a successful prefix up to the index phase, the pipeline
result reduces to the ENCODING / DOWNLOAD / ROOT-with-INSTALL-fallback
/ encryption-key tail. -/
theorem openPipelineSpec_tail (o : OpenOracle)
    (h0 : o.allocOk = true) (h1 : o.mainFile = casc_ERROR_SUCCESS)
    (h2 : o.cdnConfig = casc_ERROR_SUCCESS ∨ o.online = false)
    (h3 : o.cdnBuild = casc_ERROR_SUCCESS) (h4 : o.initCKey = casc_ERROR_SUCCESS)
    (h5 : o.indexFiles = casc_ERROR_SUCCESS) :
    openPipelineSpec o =
      stepE o.encoding (stepE o.download
        (stepE (if o.root ≠ casc_ERROR_SUCCESS ∧ o.root ≠ casc_ERROR_NOT_ENOUGH_MEMORY
                then o.install else o.root) o.encKeys)) := by
  have h2e : (if o.cdnConfig ≠ casc_ERROR_SUCCESS ∧ o.online = false
              then casc_ERROR_SUCCESS else o.cdnConfig) = casc_ERROR_SUCCESS := by
    rcases h2 with h | h
    · simp [h]
    · simp only [h]
      split_ifs with hc <;> simp_all
  simp only [openPipelineSpec, h0, h1, h2e, h3, h4, h5]
  simp only [firstError_cons, firstError_nil, stepE_success]
  simp [stepE, casc_ERROR_SUCCESS]

/-- C2 counterexample: the progress callback is truthy at the
"Loading ROOT manifest" phase boundary, yet the open is not cancelled:
LoadBuildManifest returns CANCELLED, the pipeline treats that code
like any other non-out-of-memory ROOT failure and falls back to the
INSTALL manifest, which succeeds, so the open returns SUCCESS and a
non-null storage handle. -/
theorem spec_C2_cex :
    cbTruthyAtRoot "Loading ROOT manifest" = true ∧
    (loadBuildManifestModel attemptGoodReparse cbTruthyAtRoot false 4).err =
      casc_ERROR_CANCELLED ∧
    (loadCascStorageWithCallback oracleAllSuccess cbTruthyAtRoot attemptGoodReparse false 4).1 =
      casc_ERROR_SUCCESS ∧
    openStorageExResult
      (loadCascStorageWithCallback oracleAllSuccess cbTruthyAtRoot attemptGoodReparse false 4) =
      (true, some ()) := by
  exact ⟨rfl, rfl, rfl, rfl⟩

/-- C2 (amended): a truthy progress callback at the ENCODING or
DOWNLOAD phase boundary cancels the open with CANCELLED and no handle
is returned; a truthy callback at the "Loading ROOT manifest" boundary
instead makes the pipeline fall back to the INSTALL manifest, so the
open is cancelled only if the INSTALL phase also fails (for instance
because its callback is truthy too), and succeeds when the INSTALL
phase and the remaining phases succeed. -/
theorem spec_C2_amended (o : OpenOracle) (cb : String → Bool)
    (attempt : Bool → Nat × Option RootHandler) (hasVfs : Bool) (fuel : Nat)
    (h0 : o.allocOk = true) (h1 : o.mainFile = casc_ERROR_SUCCESS)
    (h2 : o.cdnConfig = casc_ERROR_SUCCESS ∨ o.online = false)
    (h3 : o.cdnBuild = casc_ERROR_SUCCESS) (h4 : o.initCKey = casc_ERROR_SUCCESS)
    (h5 : o.indexFiles = casc_ERROR_SUCCESS) :
    (cb "Loading ENCODING manifest" = true →
      (loadCascStorageWithCallback o cb attempt hasVfs fuel).1 = casc_ERROR_CANCELLED ∧
      openStorageExResult (loadCascStorageWithCallback o cb attempt hasVfs fuel) =
        (false, none)) ∧
    (cb "Loading ENCODING manifest" = false → o.encoding = casc_ERROR_SUCCESS →
     cb "Loading DOWNLOAD manifest" = true →
      (loadCascStorageWithCallback o cb attempt hasVfs fuel).1 = casc_ERROR_CANCELLED) ∧
    (cb "Loading ENCODING manifest" = false → o.encoding = casc_ERROR_SUCCESS →
     cb "Loading DOWNLOAD manifest" = false → o.download = casc_ERROR_SUCCESS →
     cb "Loading ROOT manifest" = true → cb "Loading INSTALL manifest" = true →
      (loadCascStorageWithCallback o cb attempt hasVfs fuel).1 = casc_ERROR_CANCELLED) ∧
    (cb "Loading ENCODING manifest" = false → o.encoding = casc_ERROR_SUCCESS →
     cb "Loading DOWNLOAD manifest" = false → o.download = casc_ERROR_SUCCESS →
     cb "Loading ROOT manifest" = true → cb "Loading INSTALL manifest" = false →
     o.install = casc_ERROR_SUCCESS → o.encKeys = casc_ERROR_SUCCESS →
      (loadCascStorageWithCallback o cb attempt hasVfs fuel).1 = casc_ERROR_SUCCESS) := by
  refine ⟨?_, ?_, ?_, ?_⟩
  · intro hcb
    have hval : (loadCascStorageWithCallback o cb attempt hasVfs fuel).1 =
        casc_ERROR_CANCELLED := by
      unfold loadCascStorageWithCallback
      rw [loadCascStorage_fst, openPipelineSpec_tail]
      · simp [loadEncodingPhase, hcb, stepE, casc_ERROR_CANCELLED, casc_ERROR_SUCCESS,
          casc_ERROR_NOT_ENOUGH_MEMORY]
      all_goals simp [h0, h1, h3, h4, h5]
      exact h2
    refine ⟨hval, ?_⟩
    simp [openStorageExResult, hval, casc_ERROR_CANCELLED, casc_ERROR_SUCCESS]
  · intro henc he hcb
    unfold loadCascStorageWithCallback
    rw [loadCascStorage_fst, openPipelineSpec_tail]
    · simp [loadEncodingPhase, loadDownloadPhase, henc, he, hcb, stepE,
        casc_ERROR_CANCELLED, casc_ERROR_SUCCESS, casc_ERROR_NOT_ENOUGH_MEMORY]
    all_goals simp [h0, h1, h3, h4, h5]
    exact h2
  · intro henc he hdl hd hroot hinst
    unfold loadCascStorageWithCallback
    rw [loadCascStorage_fst, openPipelineSpec_tail]
    · simp [loadEncodingPhase, loadDownloadPhase, loadInstallPhase, loadBuildManifestModel,
        henc, he, hdl, hd, hroot, hinst, stepE,
        casc_ERROR_CANCELLED, casc_ERROR_SUCCESS, casc_ERROR_NOT_ENOUGH_MEMORY]
    all_goals simp [h0, h1, h3, h4, h5]
    exact h2
  · intro henc he hdl hd hroot hinst hi hk
    unfold loadCascStorageWithCallback
    rw [loadCascStorage_fst, openPipelineSpec_tail]
    · simp [loadEncodingPhase, loadDownloadPhase, loadInstallPhase, loadBuildManifestModel,
        henc, he, hdl, hd, hroot, hinst, hi, hk, stepE,
        casc_ERROR_CANCELLED, casc_ERROR_SUCCESS, casc_ERROR_NOT_ENOUGH_MEMORY]
    all_goals simp [h0, h1, h3, h4, h5]
    exact h2

/-- C2 witness: the amended statement at concrete callbacks. -/
theorem spec_C2_witness :
    (loadCascStorageWithCallback oracleAllSuccess
      (fun s => s == "Loading ENCODING manifest") attemptGoodReparse false 4).1 =
      casc_ERROR_CANCELLED ∧
    (loadCascStorageWithCallback oracleAllSuccess
      (fun s => s == "Loading DOWNLOAD manifest") attemptGoodReparse false 4).1 =
      casc_ERROR_CANCELLED ∧
    (loadCascStorageWithCallback oracleAllSuccess
      (fun s => s == "Loading ROOT manifest" || s == "Loading INSTALL manifest")
      attemptGoodReparse false 4).1 = casc_ERROR_CANCELLED ∧
    (loadCascStorageWithCallback oracleAllSuccess
      cbTruthyAtRoot attemptGoodReparse false 4).1 = casc_ERROR_SUCCESS := by
  refine ⟨?_, ?_, ?_, ?_⟩
  · exact ((spec_C2_amended oracleAllSuccess _ attemptGoodReparse false 4
      rfl rfl (Or.inl rfl) rfl rfl rfl).1 (by decide)).1
  · exact (spec_C2_amended oracleAllSuccess _ attemptGoodReparse false 4
      rfl rfl (Or.inl rfl) rfl rfl rfl).2.1 (by decide) rfl (by decide)
  · exact (spec_C2_amended oracleAllSuccess _ attemptGoodReparse false 4
      rfl rfl (Or.inl rfl) rfl rfl rfl).2.2.1 (by decide) rfl (by decide) rfl
      (by decide) (by decide)
  · exact (spec_C2_amended oracleAllSuccess _ attemptGoodReparse false 4
      rfl rfl (Or.inl rfl) rfl rfl rfl).2.2.2 (by decide) rfl (by decide) rfl
      (by decide) (by decide) rfl rfl

/-- C3 counterexample: one ENCODING CKey page with a single record
(CKey 0xAA..AA) is loaded twice into an empty central table.  After
the first load the CKey is present in the central table (the CKey map
finds it at index 0), yet the second load of the very same page grows
the central array from one item to two: the ENCODING insert path
never checks for an existing entry. -/
theorem spec_C3_cex :
    (loadEncodingCKeyPage id 16 16 encPageDup encPageDup.length 41 0 []).length = 1 ∧
    findCKeyEntry_CKey (loadEncodingCKeyPage id 16 16 encPageDup encPageDup.length 41 0 [])
      (List.replicate 16 0xAA) = some 0 ∧
    (loadEncodingCKeyPage id 16 16 encPageDup encPageDup.length 41 0
      (loadEncodingCKeyPage id 16 16 encPageDup encPageDup.length 41 0 [])).length = 2 := by
  decide

/-- C3 (amended): the ENCODING insert path appends a new central entry
for every record unconditionally — also when the record CKey is
already present — so loading a CKey page always grows the central
array by the number of records the page walk visits, and loading the
same page twice duplicates its entries.  (Only the build-file insert
path checks for an existing CKey.) -/
theorem spec_C3_amended :
    (∀ (ck : CEntry → CEntry) (tbl : List CEntry) (fe : FileCKeyRecord),
      (insertCKeyEntryEncoding ck tbl fe).length = tbl.length + 1) ∧
    (∀ (ck : CEntry → CEntry) (ckl ekl : Nat) (data : List Nat) (endOff fuel o : Nat)
       (tbl : List CEntry),
      (loadEncodingCKeyPage ck ckl ekl data endOff fuel o tbl).length =
        tbl.length + countPageRecords ckl ekl data endOff fuel o) := by
  constructor
  · intro ck tbl fe
    simp [insertCKeyEntryEncoding]
  · intro ck ckl ekl data endOff fuel
    induction fuel with
    | zero =>
      intro o tbl
      simp [loadEncodingCKeyPage, countPageRecords]
    | succ n ih =>
      intro o tbl
      by_cases h1 : o < endOff
      · by_cases h2 : (captureFileCKeyRecord data o).ekeyCount = 0
        · simp [loadEncodingCKeyPage, countPageRecords, h1, h2]
        · simp only [loadEncodingCKeyPage, countPageRecords, h1, h2, if_true, if_false,
            ite_true, ite_false, if_pos, if_neg, not_false_eq_true]
          rw [ih]
          simp [insertCKeyEntryEncoding]
          omega
      · simp [loadEncodingCKeyPage, countPageRecords, h1]

/-- If any page of the CKey page loop is bad (does not fit the buffer
or has a first-record CKey differing from its descriptor first key),
the loop result is FILE_CORRUPT. -/
theorem encPageLoop_corrupt (ck : CEntry → CEntry) (h : CascEncodingHeader)
    (data : List Nat) :
    ∀ (n i : Nat) (tbl : List CEntry),
      (∃ j, i ≤ j ∧ j < i + n ∧
        (encPagesBase h + j * h.ckeyPageSize + h.ckeyPageSize > data.length ∨
         encPageFirstRecordCKey data h j ≠ encDescFirstKey data h j)) →
      (encPageLoop ck h data n i tbl).1 = casc_ERROR_FILE_CORRUPT := by
  intro n
  induction n with
  | zero =>
    rintro i tbl ⟨j, hj1, hj2, _⟩
    omega
  | succ n ih =>
    rintro i tbl ⟨j, hj1, hj2, hbad⟩
    by_cases hb : encPagesBase h + i * h.ckeyPageSize + h.ckeyPageSize > data.length
    · simp [encPageLoop, hb]
    · by_cases hm : encPageFirstRecordCKey data h i = encDescFirstKey data h i
      · have hji : j ≠ i := by
          rintro rfl
          rcases hbad with hbad | hbad
          · exact hb hbad
          · exact hbad hm
        have hstep : encPageLoop ck h data (n + 1) i tbl =
            encPageLoop ck h data n (i + 1)
              (loadEncodingCKeyPage ck h.ckeyLength h.ekeyLength data
                (encPagesBase h + i * h.ckeyPageSize + h.ckeyPageSize)
                (encPagesBase h + i * h.ckeyPageSize + h.ckeyPageSize + 1)
                (encPagesBase h + i * h.ckeyPageSize) tbl) := by
          simp [encPageLoop, hb, hm]
        rw [hstep]
        exact ih (i + 1) _ ⟨j, by omega, by omega, hbad⟩
      · simp [encPageLoop, hb, hm]

/-- C4: if the ENCODING header parses and some CKey page i has a first
record whose 16-byte CKey differs byte-for-byte from the first-CKey of
page descriptor i, then the ENCODING manifest load returns
FILE_CORRUPT, and an open whose earlier phases succeed and whose
ENCODING phase returns that code fails with FILE_CORRUPT. -/
theorem spec_C4_pageFirstKeyMismatch (ck : CEntry → CEntry) (builds tbl : List CEntry)
    (data : List Nat) (h : CascEncodingHeader)
    (hcap : captureEncodingHeader data = some h)
    (i : Nat) (hi : i < h.ckeyPageCount)
    (hmis : encPageFirstRecordCKey data h i ≠ encDescFirstKey data h i) :
    (loadEncodingManifestBody ck builds data tbl).1 = casc_ERROR_FILE_CORRUPT ∧
    (∀ o : OpenOracle, o.allocOk = true → o.mainFile = casc_ERROR_SUCCESS →
      (o.cdnConfig = casc_ERROR_SUCCESS ∨ o.online = false) →
      o.cdnBuild = casc_ERROR_SUCCESS → o.initCKey = casc_ERROR_SUCCESS →
      o.indexFiles = casc_ERROR_SUCCESS →
      o.encoding = (loadEncodingManifestBody ck builds data tbl).1 →
      (loadCascStorage o).1 = casc_ERROR_FILE_CORRUPT) := by
  have hloop : (encPageLoop ck h data h.ckeyPageCount 0 tbl).1 = casc_ERROR_FILE_CORRUPT :=
    encPageLoop_corrupt ck h data h.ckeyPageCount 0 tbl
      ⟨i, Nat.zero_le i, by omega, Or.inr hmis⟩
  have hbody : (loadEncodingManifestBody ck builds data tbl).1 = casc_ERROR_FILE_CORRUPT := by
    simp only [loadEncodingManifestBody, hcap]
    simp [hloop, casc_ERROR_FILE_CORRUPT, casc_ERROR_SUCCESS]
  refine ⟨hbody, ?_⟩
  intro o ho0 ho1 ho2 ho3 ho4 ho5 hoe
  rw [loadCascStorage_fst, openPipelineSpec_tail o ho0 ho1 ho2 ho3 ho4 ho5]
  rw [hoe, hbody]
  simp [stepE, casc_ERROR_FILE_CORRUPT, casc_ERROR_SUCCESS]

set_option maxRecDepth 100000 in
/-- C4 witness: the concrete ENCODING image whose page 0 starts with
CKey 0xCC..CC while its descriptor declares 0xAA..AA. -/
theorem spec_C4_witness :
    (loadEncodingManifestBody id [] encFileMismatch []).1 = casc_ERROR_FILE_CORRUPT ∧
    (loadCascStorage { oracleAllSuccess with
        encoding := (loadEncodingManifestBody id [] encFileMismatch []).1 }).1 =
      casc_ERROR_FILE_CORRUPT := by
  have h := spec_C4_pageFirstKeyMismatch id [] [] encFileMismatch encHdrMismatch
    (by decide) 0 (by decide) (by decide)
  exact ⟨h.1, h.2 _ rfl rfl (Or.inl rfl) rfl rfl rfl rfl⟩

/-- C5: behaviour of the ROOT reparse path.  First conjunct (the
intended scenario): with a VFS root whose handler reparses and a build
ROOT CKey that dispatches successfully, the dispatcher issues the
"Loading ROOT manifest (reparsed)" callback, performs exactly one
retry (two load attempts), and copies the old handler name-to-CKey
map into the new handler before the old one is destroyed.  Second
conjunct (the divergence): when the handler returns REPARSE_ROOT for
the build ROOT CKey as well, the loop keeps retrying — one load
attempt per unit of fuel, with the reparse still pending — because
pCKeyEntry is reassigned to the central-array entry found by
FindCKeyEntry_CKey before the guard compares it against the RootFile
member, so the guard never stops the retries. -/
theorem spec_C5_reparseRoot :
    loadBuildManifestModel attemptGoodReparse cbNever true 8 =
      { err := casc_ERROR_SUCCESS
        handler := some { entries := [("root-name", 11), ("vfs-name", 7)] }
        callbacks := ["Loading ROOT manifest", "Loading ROOT manifest (reparsed)"]
        attempts := 2 } ∧
    (∀ (n : Nat) (useVfs : Bool) (old : Option RootHandler) (cbs : List String) (a : Nat),
      (lbmGo attemptAlwaysReparse cbNever n useVfs old cbs a).attempts = a + n ∧
      (lbmGo attemptAlwaysReparse cbNever n useVfs old cbs a).err =
        casc_ERROR_REPARSE_ROOT) := by
  constructor
  · decide
  · intro n
    induction n with
    | zero =>
      intro useVfs old cbs a
      simp [lbmGo]
    | succ n ih =>
      intro useVfs old cbs a
      have h := ih false (some ⟨[]⟩) (cbs ++ ["Loading ROOT manifest (reparsed)"]) (a + 1)
      simp only [lbmGo, attemptAlwaysReparse, cbNever, findResultIsRootFileField,
        if_true, if_false, and_self, ite_true, ite_false, Bool.false_eq_true]
      constructor
      · rw [h.1]
        omega
      · exact h.2

/-- The effective bitmap length is the ceiling of entryCount / 8
clamped to the remaining byte count. -/
theorem getTagBitmapLength_eq_min (remaining entryCount : Nat) :
    getTagBitmapLength remaining entryCount = min ((entryCount + 7) / 8) remaining := by
  simp only [getTagBitmapLength]
  split_ifs <;> omega

theorem tagBitsAux_eq (i : Nat) :
    ∀ (ts : List CascTagEntry1) (k acc : Nat),
      tagBitsAux ts i (2 ^ k % 2 ^ 64) acc = acc ||| tagOrMask ts i k := by
  intro ts
  induction ts with
  | nil =>
    intro k acc
    simp [tagBitsAux, tagOrMask]
  | cons t ts ih =>
    intro k acc
    have h2m : (2 : Nat) % 2 ^ 64 = 2 := by norm_num
    have hstep : 2 ^ k % 2 ^ 64 * 2 % 2 ^ 64 = 2 ^ (k + 1) % 2 ^ 64 := by
      calc 2 ^ k % 2 ^ 64 * 2 % 2 ^ 64
          = 2 ^ k % 2 ^ 64 * ((2 : Nat) % 2 ^ 64) % 2 ^ 64 := by rw [h2m]
        _ = 2 ^ k * 2 % 2 ^ 64 := (Nat.mul_mod (2 ^ k) 2 (2 ^ 64)).symm
        _ = 2 ^ (k + 1) % 2 ^ 64 := by rw [pow_succ 2 k]
    simp only [tagBitsAux, tagOrMask, hstep, ih (k + 1)]
    by_cases hm : tagMatchesEntry t i = true
    · simp [hm, Nat.lor_assoc]
    · simp [hm]

theorem tagOrMask_testBit_lt (i : Nat) :
    ∀ (ts : List CascTagEntry1) (k j : Nat), j < k →
      (tagOrMask ts i k).testBit j = false := by
  intro ts
  induction ts with
  | nil =>
    intro k j hj
    simp [tagOrMask]
  | cons t ts ih =>
    intro k j hj
    simp only [tagOrMask, Nat.testBit_lor]
    rw [ih (k + 1) j (by omega)]
    by_cases hm : tagMatchesEntry t i = true
    · simp only [hm, if_true, Bool.or_false, ite_true]
      by_cases hk : k < 64
      · rw [Nat.mod_eq_of_lt (Nat.pow_lt_pow_right one_lt_two hk)]
        exact Nat.testBit_two_pow_of_ne (by omega)
      · rw [Nat.mod_eq_zero_of_dvd (pow_dvd_pow 2 (by omega))]
        exact Nat.zero_testBit j
    · simp [hm]

theorem tagOrMask_testBit (i : Nat) :
    ∀ (ts : List CascTagEntry1) (k j : Nat), k ≤ j → j < 64 → j - k < ts.length →
      (tagOrMask ts i k).testBit j = tagMatchesEntry (ts.getD (j - k) default) i := by
  intro ts
  induction ts with
  | nil =>
    intro k j h1 h2 h3
    simp at h3
  | cons t ts ih =>
    intro k j h1 h2 h3
    simp only [tagOrMask, Nat.testBit_lor]
    by_cases hkj : j = k
    · subst hkj
      rw [tagOrMask_testBit_lt i ts (j + 1) j (by omega)]
      simp only [Nat.sub_self, List.getD_cons_zero, Bool.or_false]
      by_cases hm : tagMatchesEntry t i = true
      · rw [hm]
        simp only [if_true, ite_true]
        rw [Nat.mod_eq_of_lt (Nat.pow_lt_pow_right one_lt_two h2)]
        exact Nat.testBit_two_pow_self
      · simp only [Bool.not_eq_true] at hm
        rw [hm]
        simp
    · have hlt : k < j := by omega
      rw [ih (k + 1) j (by omega) h2 (by simp at h3; omega)]
      have hgd : (t :: ts).getD (j - k) default = ts.getD (j - (k + 1)) default := by
        have hjk : j - k = (j - (k + 1)) + 1 := by omega
        rw [hjk]
        simp
      rw [hgd]
      by_cases hm : tagMatchesEntry t i = true
      · simp only [hm, ite_true]
        rw [Nat.mod_eq_of_lt (Nat.pow_lt_pow_right one_lt_two (by omega))]
        rw [Nat.testBit_two_pow_of_ne (by omega)]
        simp
      · simp [hm]

/-- C7: a DOWNLOAD tag has effective bitmap length
ceil(entryCount / 8) clamped to the bytes remaining before the end of
the buffer, and a capture whose name and value fields are in bounds
succeeds with that clamped bitmap, so a truncated final bitmap does
not fail the parse; and for every entry index i and tag index j below
min(64, tag count), bit j of the computed tag bit mask is set iff
byte i / 8 lies within tag j effective bitmap and has bit
0x80 >> (i % 8) set. -/
theorem spec_C7_tagBitmaps :
    (∀ remaining entryCount : Nat,
      getTagBitmapLength remaining entryCount = min ((entryCount + 7) / 8) remaining) ∧
    (∀ (entryCount : Nat) (r : List Nat) (k : Nat),
      r.findIdx? (fun b => b == 0) = some k → k + 5 ≤ r.length →
      captureDownloadTag entryCount r = some
        { nameLength := k
          tagValue := beBytes (readBytes r (k + 1) 2)
          bitmap := readBytes r (k + 3) (min ((entryCount + 7) / 8) (r.length - (k + 3)))
          tagLength := (k + 3) + min ((entryCount + 7) / 8) (r.length - (k + 3)) }) ∧
    (∀ (tags : List CascTagEntry1) (i j : Nat), j < min 64 tags.length →
      (tagBitsAux tags i 1 0).testBit j = tagMatchesEntry (tags.getD j default) i) := by
  refine ⟨getTagBitmapLength_eq_min, ?_, ?_⟩
  · intro ec r k hfind hlen
    simp only [captureDownloadTag, hfind]
    rw [if_neg (by omega), getTagBitmapLength_eq_min]
  · intro tags i j hj
    have hj64 : j < 64 := by omega
    have hjlen : j < tags.length := by omega
    have h1 : (1 : Nat) = 2 ^ 0 % 2 ^ 64 := by norm_num
    rw [h1, tagBitsAux_eq i tags 0 0]
    have := tagOrMask_testBit i tags 0 j (Nat.zero_le j) hj64 (by omega)
    simpa using this

/-- C7 witness: concrete tags, including one whose 13-byte declared
bitmap is truncated to the 2 remaining bytes, and concrete tag bit
masks. -/
theorem spec_C7_witness :
    captureDownloadTag 9 [109, 97, 99, 0, 0, 1, 128, 64] =
      some { nameLength := 3, tagValue := 1, bitmap := [128, 64], tagLength := 8 } ∧
    captureDownloadTag 100 [116, 0, 0, 2, 255, 170] =
      some { nameLength := 1, tagValue := 2, bitmap := [255, 170], tagLength := 6 } ∧
    (tagBitsAux [⟨3, 1, [128], 4⟩, ⟨4, 2, [], 3⟩] 0 1 0).testBit 0 = true ∧
    (tagBitsAux [⟨3, 1, [128], 4⟩, ⟨4, 2, [], 3⟩] 0 1 0).testBit 1 = false := by
  refine ⟨?_, ?_, ?_, ?_⟩
  · have h := spec_C7_tagBitmaps.2.1 9 [109, 97, 99, 0, 0, 1, 128, 64] 3 (by decide) (by decide)
    rw [h]
    decide
  · have h := spec_C7_tagBitmaps.2.1 100 [116, 0, 0, 2, 255, 170] 1 (by decide) (by decide)
    rw [h]
    decide
  · have h := spec_C7_tagBitmaps.2.2 [⟨3, 1, [128], 4⟩, ⟨4, 2, [], 3⟩] 0 0 (by decide)
    rw [h]
    decide
  · have h := spec_C7_tagBitmaps.2.2 [⟨3, 1, [128], 4⟩, ⟨4, 2, [], 3⟩] 0 1 (by decide)
    rw [h]
    decide

/-- The wrapping fold of GetStorageTotalFileCount computes the sum of
max(refCount, 1) over the file entries, reduced modulo 2 ^ 32. -/
theorem totalFileCount_fold (isFile : CEntry → Bool) :
    ∀ (l : List CEntry) (a : Nat), a < 2 ^ 32 →
      l.foldl (fun acc e =>
          if isFile e then (acc + (if e.refCount ≠ 0 then e.refCount else 1)) % 2 ^ 32
          else acc) a
        = (a + ((l.filter isFile).map (fun e => max e.refCount 1)).sum) % 2 ^ 32 := by
  intro l
  induction l with
  | nil =>
    intro a ha
    simp only [List.foldl_nil, List.filter_nil, List.map_nil, List.sum_nil, Nat.add_zero]
    omega
  | cons e l ih =>
    intro a ha
    by_cases hf : isFile e = true
    · have hmax : (if e.refCount ≠ 0 then e.refCount else 1) = max e.refCount 1 := by
        split_ifs with h <;> omega
      simp only [List.foldl_cons, List.filter_cons, hf, if_true, List.map_cons, List.sum_cons]
      rw [hmax, ih ((a + max e.refCount 1) % 2 ^ 32) (Nat.mod_lt _ (by norm_num))]
      rw [Nat.mod_add_mod]
      ring_nf
    · simp only [List.foldl_cons, List.filter_cons, hf, List.map_cons, List.sum_cons]
      rw [if_neg (by simp [hf])]
      exact ih a ha

/-- C9: the total-file-count info query is lazy — when the cached
count is non-zero it is returned (truncated to DWORD) with the state
unchanged, and only a zero cache triggers the recomputation, whose
result (the sum over file entries of max(refCount, 1), in wrapping
DWORD arithmetic) is stored back into the cache. -/
theorem spec_C9_totalFileCount (isFile : CEntry → Bool) (s : StorageCountState) :
    (s.totalFiles ≠ 0 →
      cascGetStorageInfoTotalFileCount isFile s = (s.totalFiles % 2 ^ 32, s)) ∧
    (s.totalFiles = 0 →
      cascGetStorageInfoTotalFileCount isFile s =
        (((s.table.filter isFile).map (fun e => max e.refCount 1)).sum % 2 ^ 32,
         { s with totalFiles :=
            ((s.table.filter isFile).map (fun e => max e.refCount 1)).sum % 2 ^ 32 })) := by
  constructor
  · intro h
    simp [cascGetStorageInfoTotalFileCount, h]
  · intro h
    have hv : getStorageTotalFileCount isFile s.table =
        ((s.table.filter isFile).map (fun e => max e.refCount 1)).sum % 2 ^ 32 := by
      have := totalFileCount_fold isFile s.table 0 (by norm_num)
      simpa [getStorageTotalFileCount] using this
    have hvlt : getStorageTotalFileCount isFile s.table < 2 ^ 32 := by
      rw [hv]
      exact Nat.mod_lt _ (by norm_num)
    simp [cascGetStorageInfoTotalFileCount, h, hv]

/-- C9 witness: the two query branches at a concrete storage state
(two file entries with reference counts 5 and 0, one non-file). -/
theorem spec_C9_witness :
    cascGetStorageInfoTotalFileCount (fun e => e.inEKeyMap)
      ⟨0, [sampleEntry 5 true, sampleEntry 3 false, sampleEntry 0 true]⟩ =
      (6, ⟨6, [sampleEntry 5 true, sampleEntry 3 false, sampleEntry 0 true]⟩) ∧
    cascGetStorageInfoTotalFileCount (fun e => e.inEKeyMap)
      ⟨7, [sampleEntry 5 true]⟩ = (7, ⟨7, [sampleEntry 5 true]⟩) := by
  constructor
  · have h := (spec_C9_totalFileCount (fun e => e.inEKeyMap)
      ⟨0, [sampleEntry 5 true, sampleEntry 3 false, sampleEntry 0 true]⟩).2 rfl
    rw [h]
    decide
  · have h := (spec_C9_totalFileCount (fun e => e.inEKeyMap)
      ⟨7, [sampleEntry 5 true]⟩).1 (by decide)
    rw [h]
    decide

/-- The DOWNLOAD entry loop stops at the first index whose record does
not fit strictly inside the buffer, having processed exactly the
preceding entries. -/
theorem dlEntryLoop_stops (ck : CEntry → CEntry) (hdr : CascDownloadHeader)
    (tagsOpt : Option (List CascTagEntry1)) (data : List Nat) :
    ∀ (n m i : Nat) (tbl : List CEntry), m < n →
      (∀ d, d < m →
        ¬ (data.drop (hdr.headerLength + (i + d) * hdr.entryLength)).length ≤
            hdr.entryLength) →
      (data.drop (hdr.headerLength + (i + m) * hdr.entryLength)).length ≤ hdr.entryLength →
      (dlEntryLoop ck hdr tagsOpt data n i tbl).2 = i + m := by
  intro n
  induction n with
  | zero =>
    intro m i tbl hmn
    omega
  | succ n ih =>
    intro m i tbl hmn hok hfail
    cases m with
    | zero =>
      have hfail0 : (data.drop (hdr.headerLength + i * hdr.entryLength)).length ≤
          hdr.entryLength := by simpa using hfail
      have hc : captureDownloadEntry hdr
          (data.drop (hdr.headerLength + i * hdr.entryLength)) = none := by
        simp only [captureDownloadEntry]
        rw [if_pos hfail0]
      simp [dlEntryLoop, hc]
    | succ m =>
      have h0 : ¬ (data.drop (hdr.headerLength + i * hdr.entryLength)).length ≤
          hdr.entryLength := by
        have := hok 0 (by omega)
        simpa using this
      cases hcap : captureDownloadEntry hdr
          (data.drop (hdr.headerLength + i * hdr.entryLength)) with
      | none =>
        exfalso
        simp only [captureDownloadEntry] at hcap
        rw [if_neg h0] at hcap
        simp at hcap
      | some dl =>
        simp only [dlEntryLoop, hcap]
        have hgoal : i + (m + 1) = i + 1 + m := by omega
        rw [hgoal]
        refine ih m (i + 1) _ (by omega) ?_ ?_
        · intro d hd
          have heq : i + 1 + d = i + (d + 1) := by omega
          rw [heq]
          exact hok (d + 1) (by omega)
        · have heq : i + 1 + m = i + (m + 1) := by omega
          rw [heq]
          exact hfail

/-- C10: CaptureDownloadEntry rejects an entry exactly when its
fixed-length record ends at or beyond the end of the buffer (a record
flush with the buffer end is rejected too, because the source compares
with >=); when the first such index is i, the entry loop of
LoadDownloadManifest stops there without recording an error — entries
i through entryCount - 1 are silently skipped and, with no tag phase
error, the manifest load reports success with exactly i entries
processed. -/
theorem spec_C10_entryRange (ck : CEntry → CEntry) (hdr : CascDownloadHeader)
    (data : List Nat) (tbl : List CEntry) (tagAllocOk : Bool) (i : Nat)
    (htags : hdr.tagCount = 0) (hi : i < hdr.entryCount)
    (hok : ∀ d, d < i →
      ¬ (data.drop (hdr.headerLength + d * hdr.entryLength)).length ≤ hdr.entryLength)
    (hfail : (data.drop (hdr.headerLength + i * hdr.entryLength)).length ≤ hdr.entryLength) :
    (∀ r : List Nat, captureDownloadEntry hdr r = none ↔ r.length ≤ hdr.entryLength) ∧
    (loadDownloadManifestInner ck hdr data tbl tagAllocOk).err = casc_ERROR_SUCCESS ∧
    (loadDownloadManifestInner ck hdr data tbl tagAllocOk).processed = i := by
  refine ⟨?_, ?_, ?_⟩
  · intro r
    constructor
    · intro h
      by_contra hle
      simp only [captureDownloadEntry] at h
      rw [if_neg hle] at h
      simp at h
    · intro hle
      simp only [captureDownloadEntry]
      rw [if_pos hle]
  · simp [loadDownloadManifestInner, htags]
  · have hstop := dlEntryLoop_stops ck hdr none data hdr.entryCount i 0 tbl hi
      (fun d hd => by simpa using hok d hd)
      (by simpa using hfail)
    simp [loadDownloadManifestInner, htags, hstop]

/-- C10 witness: a DOWNLOAD buffer of 55 bytes declaring 3 entries of
22 bytes behind an 11-byte header; entry 0 fits strictly, entry 1 ends
flush with the buffer end and is rejected, and the load reports
success with exactly one entry processed. -/
theorem spec_C10_witness :
    (loadDownloadManifestInner id
      { version := 1, ekeyLength := 16, entryHasChecksum := 0, entryCount := 3,
        tagCount := 0, flagByteSize := 0, basePriority := 0, headerLength := 11,
        entryLength := 22 }
      (List.replicate 55 7) [] true).err = casc_ERROR_SUCCESS ∧
    (loadDownloadManifestInner id
      { version := 1, ekeyLength := 16, entryHasChecksum := 0, entryCount := 3,
        tagCount := 0, flagByteSize := 0, basePriority := 0, headerLength := 11,
        entryLength := 22 }
      (List.replicate 55 7) [] true).processed = 1 := by
  have h := spec_C10_entryRange id
    { version := 1, ekeyLength := 16, entryHasChecksum := 0, entryCount := 3,
      tagCount := 0, flagByteSize := 0, basePriority := 0, headerLength := 11,
      entryLength := 22 }
    (List.replicate 55 7) [] true 1 rfl (by decide)
    (by
      intro d hd
      have hd0 : d = 0 := by omega
      subst hd0
      decide)
    (by decide)
  exact ⟨h.2.1, h.2.2⟩
